import Mathlib

/-!
Verification of the AM32 RTTTL codec (`dronecan_gui_tool/am32_rtttl.py`).

The development is a shallow embedding of the module `AM32_Rtttl`:

* Python IEEE-754 doubles are modelled as exact rationals (`ℚ`).  Every
  double is a rational number, and every arithmetic step of the codec other
  than the two transcendental ingredients below is a field operation or a
  rounding, so the embedding follows the source expression by expression.
* The two transcendental ingredients are handled as follows.
  The parser's constant `2 ** (1 / 12)` is embedded as the rational value of
  the IEEE double `1.0594630943592953` (`TWELFTH_ROOT` below).  The decoder's
  `round(12 * math.log2(freq / C4))` and its canonical frequency
  `C4 * 2 ** (k / 12)` are abstracted as explicit function parameters
  (`semis : ℚ → ℤ` and `pow12 : ℤ → ℚ`) of the decoder: theorems either hold
  for every choice of these parameters or instantiate them at values that the
  real functions provably take (see `semis_real_value_at_temp3_168`).
* `bytearray` values are `List ℕ`; fallible Python code (exceptions) is
  embedded with `Option`/`Except`.
-/

/-- Error raised by the encoder `AM32_Rtttl.to_am32_startup_melody`:
`parseError` models the `ValueError`s propagated out of `AM32_Rtttl.parse`,
`sizeError` the explicit too-small-length `ValueError` of the source,
and `indexError` an `IndexError` from an out-of-range `bytearray` write. -/
inductive EncErr where
  | parseError : EncErr
  | sizeError : EncErr
  | indexError : EncErr
deriving DecidableEq

/-- Error raised by the decoder `AM32_Rtttl.from_am32_startup_melody`:
`indexError` models an `IndexError` from `NOTE_ORDER[note_index]`,
`divisionByZero` the `ZeroDivisionError` from `4 * 60000 / bpm`. -/
inductive DecErr where
  | indexError : DecErr
  | divisionByZero : DecErr
deriving DecidableEq

/-- The dict returned by `AM32_Rtttl.get_defaults`.  The source keeps the
values as decimal strings and converts with `int(...)` at each use; since the
whitelists only allow decimal numerals, the embedding stores the numbers. -/
structure Defaults where
  duration : ℕ
  octave : ℕ
  bpm : ℕ
deriving DecidableEq

/-- One parsed melody item produced by `AM32_Rtttl.get_data`:
the dict with keys note, duration and frequency. -/
structure RNote where
  note : String
  duration : ℚ
  frequency : ℚ
deriving DecidableEq

/-- The dict returned by `AM32_Rtttl.parse`. -/
structure ParsedMelody where
  name : String
  defaults : Defaults
  melody : List RNote
deriving DecidableEq

/-- The five capture groups of the note regex
`(1|2|4|8|16|32|64)?((?:[a-g]|h|p)#?){1}(\.*)(1|2|3|4|5|6|7|8)?(\.*)`.
A group that did not participate is `none`; the dot-run groups 3 and 5 always
participate (possibly as the empty string), matching Python's `re`. -/
structure NoteGroups where
  g1 : Option String
  g2 : String
  g3 : String
  g4 : Option String
  g5 : String
deriving DecidableEq

/-- Split a character list at every occurrence of the separator, keeping
empty pieces: the semantics of Python's `str.split` (and of Lean's
`String.splitOn`) for a single-character separator.  Defined by structural
recursion so that it evaluates by kernel reduction. -/
def splitOnChar (sep : Char) : List Char → List (List Char)
  | [] => [[]]
  | c :: r =>
      match splitOnChar sep r with
      | [] => [[]]
      | h :: t => if c = sep then [] :: h :: t else (c :: h) :: t

/-- String version of `splitOnChar`. -/
def splitStr (sep : Char) (s : String) : List String :=
  (splitOnChar sep s.toList).map String.mk

/-- Python's `int(...)` on the decimal numerals allowed by the whitelists
and the regex groups (all inputs it is applied to are nonempty digit
strings). -/
def digitsToNat (s : String) : ℕ :=
  s.toList.foldl (fun n c => n * 10 + (c.toNat - '0'.toNat)) 0

/-- Characters that can start capture group 2 of the note regex:
`[a-g]`, `h` or `p`. -/
def pitchChar (c : Char) : Bool :=
  decide (('a' ≤ c ∧ c ≤ 'g') ∨ c = 'h' ∨ c = 'p')

/-- Whether the next character can start capture group 2. -/
def headPitch : List Char → Bool
  | c :: _ => pitchChar c
  | [] => false

/-- Capture group 1 of the note regex: the optional duration numeral, with
Python's ordered-alternation backtracking semantics.  The engine commits to
an alternative of `(1|2|4|8|16|32|64)?` exactly when the rest of the pattern
can still match, i.e. when the following character can start group 2;
otherwise the group is skipped. -/
def splitDuration : List Char → Option String × List Char
  | '1' :: '6' :: r => if headPitch r then (some "16", r) else (none, '1' :: '6' :: r)
  | '3' :: '2' :: r => if headPitch r then (some "32", r) else (none, '3' :: '2' :: r)
  | '6' :: '4' :: r => if headPitch r then (some "64", r) else (none, '6' :: '4' :: r)
  | c :: r =>
      if (c = '1' ∨ c = '2' ∨ c = '4' ∨ c = '8') ∧ headPitch r then (some (String.mk [c]), r)
      else (none, c :: r)
  | [] => (none, [])

/-- Capture group 2 of the note regex: one pitch character with an optional,
greedily taken `#`. -/
def splitNote : List Char → Option (String × List Char)
  | c :: '#' :: r => if pitchChar c then some (String.mk [c, '#'], r) else none
  | c :: r => if pitchChar c then some (String.mk [c], r) else none
  | [] => none

/-- A greedy dot run (capture groups 3 and 5 of the note regex). -/
def splitDots (cs : List Char) : String × List Char :=
  (String.mk (cs.takeWhile (fun c => decide (c = '.'))),
   cs.dropWhile (fun c => decide (c = '.')))

/-- Capture group 4 of the note regex: an optional octave digit `1`–`8`. -/
def splitOctave : List Char → Option String × List Char
  | c :: r => if decide ('1' ≤ c ∧ c ≤ '8') then (some (String.mk [c]), r) else (none, c :: r)
  | [] => (none, [])

/-- `NOTE_REGEX.match(note)`: matches the regex at the start of the token
(trailing unmatched text is ignored, as with `re.match`), returning the five
capture groups, or `none` when the token has no match and is dropped. -/
def regexMatch (note : String) : Option NoteGroups :=
  let cs := note.toList
  let p1 := splitDuration cs
  match splitNote p1.2 with
  | none => none
  | some p2 =>
      let p3 := splitDots p2.2
      let p4 := splitOctave p3.2
      let p5 := splitDots p4.2
      some ⟨p1.1, p2.1, p3.1, p4.1, p5.1⟩

/-- The dot count used by `AM32_Rtttl.get_data` (line 258 of the source):
`match.group(3).count('.') if match.group(3) else
 match.group(5).count('.') if match.group(5) else 0`.
Both dot-run groups consist of dots only, so `count('.')` is the length. -/
def noteDots (g : NoteGroups) : ℕ :=
  if g.g3 ≠ "" then g.g3.length else if g.g5 ≠ "" then g.g5.length else 0

/-- The inner helper `calculate_duration` of `AM32_Rtttl.get_data`. -/
def calculate_duration (beat_every : ℚ) (note_duration : ℚ) (dots : ℕ) : ℚ :=
  (beat_every * 4) / note_duration *
    (if dots = 4 then 1.9375 else if dots = 3 then 1.875 else if dots = 2 then 1.75
     else if dots = 1 then 1.5 else 1)

/-- The list `NOTE_ORDER` of the source. -/
def NOTE_ORDER : List String :=
  ["c", "c#", "d", "d#", "e", "f", "f#", "g", "g#", "a", "a#", "b"]

/-- The rational value of the IEEE double `2 ** (1 / 12)` computed by Python
for `TWELFTH_ROOT` (its shortest round-tripping decimal representation). -/
def TWELFTH_ROOT : ℚ := 1.0594630943592953

/-- The inner helper `calculate_frequency` of `AM32_Rtttl.get_data`:
`round(C4 * TWELFTH_ROOT ** N * 10) / 10` with
`N = NOTE_ORDER.index(note) + (octave - 4) * 12`, and `0` for a rest.
`NOTE_ORDER.index` raises `ValueError` when the note is absent (for the
tokens `e#`, `b#`, `h#`, `p#`), modelled by `none`. -/
def parse_note_frequency (note : String) (octave : ℕ) : Option ℚ :=
  if note = "p" then some 0
  else
    match NOTE_ORDER.findIdx? (fun s => decide (s = note)) with
    | none => none
    | some idx => some (round (261.63 * TWELFTH_ROOT ^ ((idx : ℤ) + ((octave : ℤ) - 4) * 12) * 10) / 10)

/-- `AM32_Rtttl.get_name` (the length warning is only a print, not modelled). -/
def get_name (name : String) : String :=
  if name = "" then "Unknown" else name

/-- Whitelist `ALLOWED_DURATION` of `AM32_Rtttl.get_defaults`. -/
def ALLOWED_DURATION : List String := ["1", "2", "4", "8", "16", "32"]

/-- Whitelist `ALLOWED_OCTAVE` of `AM32_Rtttl.get_defaults`. -/
def ALLOWED_OCTAVE : List String := ["4", "5", "6", "7"]

/-- Whitelist `ALLOWED_BPM` of `AM32_Rtttl.get_defaults`. -/
def ALLOWED_BPM : List String :=
  ["25", "28", "31", "35", "40", "45", "50", "56", "63", "70", "80", "90", "100",
   "112", "125", "140", "160", "180", "200", "225", "250", "285", "320", "355",
   "400", "450", "500", "565", "570", "635", "715", "800", "900"]

/-- `AM32_Rtttl.get_defaults`.  Each nonempty `k=v` item must split on `=`
into exactly two parts (`KEY, VAL = value.split('=')` raises `ValueError`
otherwise, modelled by `none`); recognised keys with whitelisted values
update the running defaults, everything else is silently ignored. -/
def get_defaults (defaults : String) : Option Defaults :=
  (splitStr ',' defaults).foldlM
    (fun acc value =>
      if value = "" then some acc
      else
        match splitStr '=' value with
        | [key, val] =>
            if key = "d" ∧ val ∈ ALLOWED_DURATION then
              some ⟨digitsToNat val, acc.octave, acc.bpm⟩
            else if key = "o" ∧ val ∈ ALLOWED_OCTAVE then
              some ⟨acc.duration, digitsToNat val, acc.bpm⟩
            else if key = "b" ∧ val ∈ ALLOWED_BPM then
              some ⟨acc.duration, acc.octave, digitsToNat val⟩
            else some acc
        | _ => none)
    ⟨4, 6, 63⟩

/-- `AM32_Rtttl.get_data`: split the melody section on commas, keep the
tokens matched by the note regex, and build the note dicts.  A failing
`NOTE_ORDER.index` inside the frequency computation aborts the whole call
(Python's `ValueError` propagates). -/
def get_data (melody : String) (defaults : Defaults) : Option (List RNote) :=
  (splitStr ',' melody).foldlM
    (fun acc note =>
      match regexMatch note with
      | none => some acc
      | some g =>
          let noteDurationVal : ℕ :=
            match g.g1 with
            | some s => digitsToNat s
            | none => defaults.duration
          let nm : String := if g.g2 = "h" then "b" else g.g2
          let octaveVal : ℕ :=
            match g.g4 with
            | some s => digitsToNat s
            | none => defaults.octave
          match parse_note_frequency nm octaveVal with
          | none => none
          | some freq =>
              some (acc ++
                [⟨nm, calculate_duration (60000 / (defaults.bpm : ℚ)) (noteDurationVal : ℚ)
                    (noteDots g), freq⟩]))
    []

/-- `AM32_Rtttl.parse`: requires exactly three colon-separated sections;
any `ValueError` raised inside is modelled by `none`. -/
def parse (rtttl : String) : Option ParsedMelody :=
  match splitStr ':' rtttl with
  | [s0, s1, s2] =>
      match get_defaults s1 with
      | none => none
      | some ds =>
          match get_data s2 ds with
          | none => none
          | some mel => some ⟨get_name s0, ds, mel⟩
  | _ => none

example : parse "p::p" =
    some ⟨"p", ⟨4, 6, 63⟩, [⟨"p", 60000 / 63, 0⟩]⟩ := by with_unfolding_all rfl

/-- The result dict of `AM32_Rtttl.to_am32_startup_melody`: the `bytearray`
as a list of byte values and the `errorCodes` list (`none` models `None`). -/
structure EncResult where
  data : List ℕ
  errorCodes : Option (List ℕ)
deriving DecidableEq

/-- `AM32_Rtttl._calculate_am32_temp3_from_frequency`. -/
def calculate_am32_temp3_from_frequency (freq : ℚ) : ℤ :=
  if freq = 0 then 0 else round (1000000 / (freq * 24.72) - 399.3 / 24.72)

/-- The run-length emission loop of `AM32_Rtttl.to_am32_startup_melody`
(lines 67–71 and 82–86 of the source): while the remaining count is positive
and `current_result_index < len(result)`, write the 2-byte cell
`(min(count, 255), snd)` and advance by two.  The write of the first byte is
in bounds by the loop guard; the write of the second byte at
`current_result_index + 1` is exactly Python's `result[current_result_index
+ 1] = …` and raises `IndexError` when that index is out of range.  Returns
the remaining count, the final index and the updated buffer. -/
def writeCells (v : ℤ) (snd : ℕ) (idx : ℕ) (result : List ℕ) :
    Except EncErr (ℤ × ℕ × List ℕ) :=
  if h : 0 < v ∧ idx < result.length then
    let chunk : ℤ := min v 255
    let result1 := result.set idx chunk.toNat
    if idx + 1 < result1.length then
      writeCells (v - chunk) snd (idx + 2) (result1.set (idx + 1) snd)
    else .error .indexError
  else .ok (v, idx, result)
termination_by v.toNat
decreasing_by
  have h1 : (1 : ℤ) ≤ min v 255 := le_min h.1 (by norm_num)
  have h2 : min v 255 ≤ v := min_le_left _ _
  omega

/-- Processing of a single melody item in the encoder loop of
`AM32_Rtttl.to_am32_startup_melody` (lines 58–91): returns the error code
recorded for the item together with the advanced index and buffer. -/
def encodeOne (item : RNote) (idx : ℕ) (result : List ℕ) :
    Except EncErr (ℕ × ℕ × List ℕ) :=
  if item.frequency ≠ 0 then
    let temp3 := calculate_am32_temp3_from_frequency item.frequency
    if 0 < temp3 ∧ temp3 < 256 then
      let duration_per_pulse_ms := 1000 / item.frequency
      let pulses_needed := round (item.duration / duration_per_pulse_ms)
      match writeCells pulses_needed temp3.toNat idx result with
      | .error e => .error e
      | .ok (remaining, idx1, result1) =>
          .ok (if 0 < remaining then 2 else 0, idx1, result1)
    else .ok (1, idx, result)
  else
    let duration := round item.duration
    match writeCells duration 0 idx result with
    | .error e => .error e
    | .ok (remaining, idx1, result1) =>
        .ok (if 0 < remaining then 2 else 0, idx1, result1)

/-- The two loops of `AM32_Rtttl.to_am32_startup_melody` over the melody
items (lines 57–97): items are encoded while `current_result_index <
len(result)`; once the buffer is exhausted, every remaining item receives
error code 2 and nothing further is written. -/
def encodeNotes : List RNote → ℕ → List ℕ → Except EncErr (List ℕ × List ℕ)
  | [], _, result => .ok (result, [])
  | item :: rest, idx, result =>
      if idx < result.length then
        match encodeOne item idx result with
        | .error e => .error e
        | .ok (code, idx1, result1) =>
            match encodeNotes rest idx1 result1 with
            | .error e => .error e
            | .ok (res, codes) => .ok (res, code :: codes)
      else .ok (result, List.replicate (rest.length + 1) 2)

/-- `AM32_Rtttl.to_am32_startup_melody`.  The empty string returns
`bytearray(128)` (the literal 128 of the source, not the requested length)
with `errorCodes = None`; otherwise the input is parsed (`parseError` models
a propagated `ValueError`), the length check is made, the four header bytes
are written and the melody items are encoded. -/
def to_am32_startup_melody (rtttl : String) (startup_melody_length : ℕ) :
    Except EncErr EncResult :=
  if rtttl = "" then .ok ⟨List.replicate 128 0, none⟩
  else
    match parse rtttl with
    | none => .error .parseError
    | some parsed_data =>
        if startup_melody_length < 4 then .error .sizeError
        else
          let bpm := parsed_data.defaults.bpm % 2 ^ 16
          let result :=
            ((((List.replicate startup_melody_length 0).set 0 ((bpm >>> 8) &&& (2 ^ 8 - 1))).set 1
                (bpm &&& (2 ^ 8 - 1))).set 2 (parsed_data.defaults.octave % 2 ^ 8)).set 3
              (parsed_data.defaults.duration % 2 ^ 8)
          match encodeNotes parsed_data.melody 4 result with
          | .error e => .error e
          | .ok (res, codes) => .ok ⟨res, some codes⟩

example : to_am32_startup_melody "p::p" 5 = .error .indexError := by
  with_unfolding_all rfl

/-- One logical note built by `AM32_Rtttl.from_am32_startup_melody`
(the dict appended to `melody_notes`). -/
structure DNote where
  duration : ℚ
  frequency : ℚ
  musicalNote : String
  musicalOctave : ℤ
deriving DecidableEq

/-- `AM32_Rtttl._calculate_frequency_from_am32_temp3`, applied to the pitch
byte of a cell. -/
def calculate_frequency_from_am32_temp3 (temp3 : ℕ) : ℚ :=
  if temp3 = 0 then 0 else 1000000 / (24.72 * temp3 + 399.3)

/-- `AM32_Rtttl._calculate_note_name_from_frequency`, with the float
computation `round(12 * math.log2(freq / C4))` abstracted as the parameter
`semis`.  For a nonnegative semitone count the index
`note_semitones % 12` lies in `0…11`; for a negative one, Python's `%`
already returns a value in `0…11`, so `12 + note_semitones % 12` lies in
`12…23` and `NOTE_ORDER[note_index]` raises `IndexError` (modelled by
`none`: `Int.emod` agrees with Python's `%` for a positive modulus). -/
def calculate_note_name_from_frequency (semis : ℚ → ℤ) (freq : ℚ) : Option String :=
  if freq = 0 then some "p"
  else
    let note_semitones := semis freq
    let note_index : ℤ :=
      if 0 ≤ note_semitones then note_semitones.emod 12 else 12 + note_semitones.emod 12
    NOTE_ORDER.get? note_index.toNat

/-- `AM32_Rtttl._calculate_note_octave_from_frequency`, with the same
`semis` abstraction; Python's floor division `//` is `Int.fdiv`. -/
def calculate_note_octave_from_frequency (semis : ℚ → ℤ) (freq : ℚ) : ℤ :=
  if freq = 0 then 0 else 4 + Int.fdiv (semis freq) 12

/-- `AM32_Rtttl._calculate_frequency` (the decoder's canonical frequency of
a note name and octave), with the float computation `C4 * 2 ** (n / 12)`
abstracted as the parameter `pow12` (`pow12 n` stands for `2 ** (n / 12)`).
The `NOTE_ORDER.index` call cannot fail on the note names the decoder
produces; the `none` branch returns 0 in the model. -/
def calculate_frequency (pow12 : ℤ → ℚ) (note : String) (octave : ℤ) : ℚ :=
  if note = "p" then 0
  else
    match NOTE_ORDER.findIdx? (fun s => decide (s = note)) with
    | some note_index => 261.63 * pow12 ((note_index : ℤ) + (octave - 4) * 12)
    | none => 0

/-- The 2-byte cells `(startup_melody_data[i], startup_melody_data[i + 1])`
visited by `for i in range(4, len(startup_melody_data) - 1, 2)`, applied to
the buffer with its 4 header bytes dropped: a trailing odd byte is ignored. -/
def toCells : List ℕ → List (ℕ × ℕ)
  | a :: b :: rest => (a, b) :: toCells rest
  | _ => []

/-- Processing of one cell in the decoder loop of
`AM32_Rtttl.from_am32_startup_melody` (lines 128–131): the cell frequency,
note name (`none` models the `IndexError` of the name lookup), octave and
duration `dur` (`count` itself for a rest, `(1000 / canonical frequency) *
count` for a pitched note). -/
def cellStep (semis : ℚ → ℤ) (pow12 : ℤ → ℚ) (cnt t3 : ℕ) :
    Option (ℚ × ℚ × String × ℤ) :=
  let freq := calculate_frequency_from_am32_temp3 t3
  match calculate_note_name_from_frequency semis freq with
  | none => none
  | some note =>
      let octave := calculate_note_octave_from_frequency semis freq
      let dur : ℚ :=
        if freq = 0 then (cnt : ℚ) else 1000 / calculate_frequency pow12 note octave * cnt
      some (dur, freq, note, octave)

/-- The decoder's cell walk (lines 126–144 of the source).  The running
note list is kept in reverse order (most recent first) and reversed on
return, mirroring the Python appends and last-element updates.  `prevCnt`
is `startup_melody_data[i - 2]`, the count byte of the previous cell (the
octave header byte for the first cell, where the nonempty-list guard makes
it irrelevant).  A cell with positive duration either extends the previous
note (when the list is nonempty, the frequencies agree within `0.01` and
the previous count byte is `255`) or appends a fresh note; a cell with
non-positive duration stops the walk (`break`). -/
def cellWalk (semis : ℚ → ℤ) (pow12 : ℤ → ℚ) :
    List (ℕ × ℕ) → ℕ → List DNote → Except DecErr (List DNote)
  | [], _, notes => .ok notes.reverse
  | (cnt, t3) :: rest, prevCnt, notes =>
      match cellStep semis pow12 cnt t3 with
      | none => .error .indexError
      | some (dur, freq, note, octave) =>
          if 0 < dur then
            match notes with
            | lastNote :: older =>
                if |lastNote.frequency - freq| < 0.01 ∧ prevCnt = 255 then
                  cellWalk semis pow12 rest cnt
                    (⟨lastNote.duration + dur, lastNote.frequency, lastNote.musicalNote,
                      lastNote.musicalOctave⟩ :: older)
                else
                  cellWalk semis pow12 rest cnt (⟨dur, freq, note, octave⟩ :: lastNote :: older)
            | [] => cellWalk semis pow12 rest cnt [⟨dur, freq, note, octave⟩]
          else .ok notes.reverse

/-- The check `all(byte == 0 for byte in startup_melody_data)` of the
decoder's first line (the `isinstance(…, bytearray)` conjunct is always
true in the model, whose buffers are byte lists). -/
def allZero (data : List ℕ) : Bool :=
  data.all (fun b => b == 0)

/-- The greedy duration decomposition loop of
`AM32_Rtttl.from_am32_startup_melody` (lines 156–164): while the remaining
fraction of a full note exceeds `1/64`, emit one RTTTL token.  The float
`math.floor(math.log2(current_duration))` is `Int.log 2` on the exact
rational; `2 ** -floor(…)` is a nonnegative integer power here because
`current_duration ≤ 1.5` forces `floor(log2 …) ≤ 0`. -/
def emitTokens (defDuration : ℕ) (defOctave : ℕ) (note : String) (octave : ℤ) (md : ℚ) :
    String :=
  if _h : 1 / 64 < md then
    let current : ℚ := min 1.5 md
    let rtttl_duration : ℕ := 2 ^ (-(Int.log 2 current)).toNat
    let is_dotted : Bool := decide (1 < current * rtttl_duration)
    ((if rtttl_duration = defDuration then "" else toString rtttl_duration) ++
        note ++
        (if octave = (defOctave : ℤ) ∨ octave = 0 then "" else toString octave) ++
        (if is_dotted then "." else "") ++ ",") ++
      emitTokens defDuration defOctave note octave (md - current)
  else ""
termination_by (⌈2 * md⌉).toNat
decreasing_by
  rcases le_total md 1.5 with hle | hle
  · have hmin : min (1.5 : ℚ) md = md := min_eq_right hle
    have h1 : (0 : ℤ) < ⌈2 * md⌉ := by
      rw [Int.lt_ceil]
      push_cast
      linarith
    have h2 : ⌈2 * (md - min 1.5 md)⌉ = 0 := by
      rw [hmin]
      norm_num
    omega
  · have hmin : min (1.5 : ℚ) md = 1.5 := min_eq_left hle
    have h1 : (3 : ℤ) ≤ ⌈2 * md⌉ := by
      have hc := Int.le_ceil (2 * md)
      have h3 : (3 : ℚ) ≤ 2 * md := by linarith
      exact_mod_cast h3.trans hc
    have h2 : ⌈2 * (md - min 1.5 md)⌉ = ⌈2 * md⌉ - 3 := by
      rw [hmin]
      rw [show (2 * (md - 1.5) : ℚ) = 2 * md - ((3 : ℤ) : ℚ) by push_cast; ring]
      exact Int.ceil_sub_int _ _
    omega

/-- Python's `str.rstrip(',')`: remove every trailing comma. -/
def rstripComma (s : String) : String :=
  String.mk (s.toList.reverse.dropWhile (fun c => decide (c = ','))).reverse

/-- `AM32_Rtttl.from_am32_startup_melody`, with the two float
transcendentals abstracted as `semis` and `pow12` (see
`calculate_note_name_from_frequency` and `calculate_frequency`).  An
all-zero buffer returns the empty string; a buffer shorter than 4 bytes
returns the placeholder header; otherwise the header is read, the cells are
walked (an `IndexError` propagates), `full_note_duration = 4 * 60000 / bpm`
raises `ZeroDivisionError` when the header bpm is zero, and finally each
logical note's quantized duration is greedily decomposed into tokens. -/
def from_am32_startup_melody (semis : ℚ → ℤ) (pow12 : ℤ → ℚ)
    (startup_melody_data : List ℕ) (melody_name : String) : Except DecErr String :=
  if allZero startup_melody_data then .ok ""
  else if startup_melody_data.length < 4 then
    .ok (melody_name ++ ":d=1,o=4,bpm=100:")
  else
    let bpm := (startup_melody_data.getD 0 0) <<< 8 + startup_melody_data.getD 1 0
    let octave := startup_melody_data.getD 2 0
    let duration := startup_melody_data.getD 3 0
    match cellWalk semis pow12 (toCells (startup_melody_data.drop 4))
        (startup_melody_data.getD 2 0) [] with
    | .error e => .error e
    | .ok melody_notes =>
        if bpm = 0 then .error .divisionByZero
        else
          let full_note_duration : ℚ := 4 * 60000 / bpm
          let smallest_musical_duration := full_note_duration / 64
          let melody_string :=
            melody_notes.foldl
              (fun acc item =>
                acc ++
                  emitTokens duration octave item.musicalNote item.musicalOctave
                    (round (item.duration / smallest_musical_duration) *
                        smallest_musical_duration / full_note_duration))
              ""
          .ok (melody_name ++ ":b=" ++ toString bpm ++ ",o=" ++ toString octave ++
            ",d=" ++ toString duration ++ ":" ++ rstripComma melody_string)

example : from_am32_startup_melody (fun _ => 0) (fun _ => 1) [0, 0, 1, 0] "Melody" =
    .error .divisionByZero := by with_unfolding_all rfl

/-- Helper: the buffer exhaustion loop.  Once the write index has reached
the end of the buffer, every remaining melody item receives error code 2
and the buffer is unchanged (lines 95–97 of the source). -/
theorem encodeNotes_exhausted (notes : List RNote) (idx : ℕ) (result : List ℕ)
    (h : result.length ≤ idx) :
    encodeNotes notes idx result = .ok (result, List.replicate notes.length 2) := by
  cases notes with
  | nil => rfl
  | cons m rest =>
      rw [encodeNotes, if_neg (not_lt.mpr h)]
      rfl

/-- Helper: the decoded frequency of pitch byte 168 (the cell the encoder
emits for the note `a3`, 220 Hz). -/
theorem freq_of_temp3_168 : calculate_frequency_from_am32_temp3 168 = 50000000 / 227613 := by
  with_unfolding_all rfl

/-- Helper justifying the oracle value used in the `IndexError` theorems:
the decoder's float computation `round(12 * math.log2(freq / C4))` at the
frequency decoded from pitch byte 168 (that is, at `50000000 / 227613 ≈
219.667 Hz`) has the exact real value `-3`, with margin about `0.1`, far
beyond double-precision error.  Hence any faithful model `semis` of that
computation satisfies `semis (calculate_frequency_from_am32_temp3 168) = -3`. -/
theorem semis_real_value_at_temp3_168 :
    round ((12 : ℝ) * Real.logb 2
      (((calculate_frequency_from_am32_temp3 168 : ℚ) : ℝ) / 261.63)) = -3 := by
  have hq : ((calculate_frequency_from_am32_temp3 168 : ℚ) : ℝ) / 261.63 =
      5000000000 / 5955038919 := by
    rw [freq_of_temp3_168]
    push_cast
    norm_num
  rw [hq]
  set r : ℝ := 5000000000 / 5955038919 with hr
  have hr0 : (0 : ℝ) < r := by rw [hr]; norm_num
  have h1 : (1 / 128 : ℝ) < r ^ (24 : ℕ) := by rw [hr]; norm_num
  have h2 : r ^ (24 : ℕ) < 1 / 32 := by rw [hr]; norm_num
  have e1 : Real.logb 2 ((1 : ℝ) / 128) = -7 := by
    rw [show ((1 : ℝ) / 128) = ((2 : ℝ) ^ (7 : ℕ))⁻¹ by norm_num, Real.logb_inv,
      Real.logb_pow, Real.logb_self_eq_one (by norm_num)]
    norm_num
  have e2 : Real.logb 2 ((1 : ℝ) / 32) = -5 := by
    rw [show ((1 : ℝ) / 32) = ((2 : ℝ) ^ (5 : ℕ))⁻¹ by norm_num, Real.logb_inv,
      Real.logb_pow, Real.logb_self_eq_one (by norm_num)]
    norm_num
  have lo : (-7 : ℝ) < 24 * Real.logb 2 r := by
    have hm := Real.logb_lt_logb (by norm_num : (1 : ℝ) < 2)
      (by norm_num : (0 : ℝ) < 1 / 128) h1
    rw [e1, Real.logb_pow] at hm
    push_cast at hm
    linarith
  have hi : 24 * Real.logb 2 r < -5 := by
    have hm := Real.logb_lt_logb (by norm_num : (1 : ℝ) < 2)
      (by positivity : (0 : ℝ) < r ^ (24 : ℕ)) h2
    rw [e2, Real.logb_pow] at hm
    push_cast at hm
    linarith
  rw [round_eq, Int.floor_eq_iff]
  constructor
  · push_cast
    linarith
  · push_cast
    linarith

/-- C2: the claim asserts that for every successfully parsing RTTTL input
and every buffer length at least 4 (odd lengths included) the encoder
completes without an out-of-range index and returns a buffer of the
requested length.  The code violates it: with the odd length 5, the single
rest note of `"p::p"` (952 duration units) makes the cell loop pass its
guard `current_result_index < len(result)` at index 4 and then write the
cell's second byte at index 5, past the end of the 5-byte buffer, raising
`IndexError`. -/
theorem encode_odd_buffer_length_index_error :
    (parse "p::p").isSome = true ∧
    to_am32_startup_melody "p::p" 5 = .error .indexError := by
  constructor
  · with_unfolding_all rfl
  · with_unfolding_all rfl

/-- C3: the claim asserts that `to_am32_startup_melody("", N)` returns
exactly `N` zero bytes.  The code instead returns the literal
`bytearray(128)`, ignoring the requested length: at `N = 5` the result
still has 128 bytes (all zero, with `errorCodes = None`, and without the
size error even though other inputs would get it for `N < 4`). -/
theorem encode_empty_string_fixed_128_buffer :
    to_am32_startup_melody "" 5 = .ok ⟨List.replicate 128 0, none⟩ ∧
    (List.replicate 128 0).length = 128 ∧ (128 : ℕ) ≠ 5 ∧
    to_am32_startup_melody "" 1 = .ok ⟨List.replicate 128 0, none⟩ := by
  refine ⟨?_, ?_, ?_, ?_⟩
  · with_unfolding_all rfl
  · with_unfolding_all rfl
  · decide
  · with_unfolding_all rfl

set_option maxRecDepth 8000 in
/-- C1: the claim asserts a decode-of-encode round trip reproducing the
parsed note sequence for every parsing RTTTL input.  The code violates it:
for `"t::a3"` (the single note `a3`, 220 Hz) the encoder produces the cell
`(210, 168)` and succeeds, but the decoder's note-name lookup computes
`note_semitones = round(12*log2(219.667/261.63)) = -3`
(`semis_real_value_at_temp3_168`), takes the negative branch
`12 + note_semitones % 12 = 21` — a JavaScript-to-Python porting slip,
since Python's `%` already yields a value in `0…11` — and
`NOTE_ORDER[21]` raises `IndexError` instead of returning any RTTTL
string.  The decoder is evaluated at a `semis` oracle taking the value
`-3` that the real computation provably takes at the only frequency the
walk visits. -/
theorem roundtrip_low_note_decode_index_error :
    to_am32_startup_melody "t::a3" 128 =
      .ok ⟨[0, 63, 6, 4, 210, 168] ++ List.replicate 122 0, some [0]⟩ ∧
    from_am32_startup_melody (fun _ => -3) (fun _ => 1)
      ([0, 63, 6, 4, 210, 168] ++ List.replicate 122 0) "t" = .error .indexError := by
  constructor
  · with_unfolding_all rfl
  · with_unfolding_all rfl

/-- C4: an encode call with buffer length exactly 4 writes only the four
header bytes (big-endian `bpm mod 2^16`, `octave mod 2^8`,
`duration mod 2^8`), writes no note cells, and returns error code 2 for
every melody item. -/
theorem encode_buffer_four_header_only (s : String) (pd : ParsedMelody)
    (hp : parse s = some pd) (_hm : pd.melody ≠ []) :
    to_am32_startup_melody s 4 =
      .ok ⟨[((pd.defaults.bpm % 2 ^ 16) >>> 8) &&& (2 ^ 8 - 1),
            (pd.defaults.bpm % 2 ^ 16) &&& (2 ^ 8 - 1),
            pd.defaults.octave % 2 ^ 8, pd.defaults.duration % 2 ^ 8],
          some (List.replicate pd.melody.length 2)⟩ := by
  have hs : s ≠ "" := by
    intro he
    rw [he, show parse "" = none from by with_unfolding_all rfl] at hp
    exact Option.noConfusion hp
  rw [to_am32_startup_melody, if_neg hs]
  simp only [hp]
  rw [if_neg (show ¬ (4 < 4) by omega)]
  have key := encodeNotes_exhausted pd.melody 4
    (((((List.replicate 4 0).set 0 (((pd.defaults.bpm % 2 ^ 16) >>> 8) &&& (2 ^ 8 - 1))).set 1
        ((pd.defaults.bpm % 2 ^ 16) &&& (2 ^ 8 - 1))).set 2 (pd.defaults.octave % 2 ^ 8)).set 3
        (pd.defaults.duration % 2 ^ 8)) (by simp)
  rw [key]
  rfl

/-- Witness for `encode_buffer_four_header_only` at the input `"x:d=1:p"`
(one rest note, defaults `d=1,o=6,b=63`). -/
theorem encode_buffer_four_header_only_witness :
    parse "x:d=1:p" = some ⟨"x", ⟨1, 6, 63⟩, [⟨"p", 240000 / 63, 0⟩]⟩ ∧
    to_am32_startup_melody "x:d=1:p" 4 = .ok ⟨[0, 63, 6, 1], some [2]⟩ := by
  have hp : parse "x:d=1:p" = some ⟨"x", ⟨1, 6, 63⟩, [⟨"p", 240000 / 63, 0⟩]⟩ := by
    with_unfolding_all rfl
  refine ⟨hp, ?_⟩
  have h := encode_buffer_four_header_only "x:d=1:p" _ hp (by simp)
  rw [h]
  rfl

/-- C5: one step of the decoder's cell walk with a previous logical note
present.  When the cell's derived duration is positive, the cell is merged
into the previous note (durations summed, no new note) exactly when the
previous cell's count byte is 255 and the cell's frequency is within 0.01
of the previous note's; otherwise a fresh note is started.  When the
derived duration is not positive, the walk returns the notes accumulated so
far, ignoring all later cells (`rest` is universally quantified). -/
theorem cellWalk_merge_characterization (semis : ℚ → ℤ) (pow12 : ℤ → ℚ)
    (cnt t3 prevCnt : ℕ) (rest : List (ℕ × ℕ)) (lastNote : DNote) (older : List DNote)
    (dur freq : ℚ) (note : String) (octave : ℤ)
    (hstep : cellStep semis pow12 cnt t3 = some (dur, freq, note, octave)) :
    (0 < dur →
      cellWalk semis pow12 ((cnt, t3) :: rest) prevCnt (lastNote :: older) =
        (if |lastNote.frequency - freq| < 0.01 ∧ prevCnt = 255 then
          cellWalk semis pow12 rest cnt
            (⟨lastNote.duration + dur, lastNote.frequency, lastNote.musicalNote,
              lastNote.musicalOctave⟩ :: older)
        else cellWalk semis pow12 rest cnt (⟨dur, freq, note, octave⟩ :: lastNote :: older))) ∧
    (¬ 0 < dur →
      cellWalk semis pow12 ((cnt, t3) :: rest) prevCnt (lastNote :: older) =
        .ok (lastNote :: older).reverse) := by
  constructor <;> intro hdur
  · simp only [cellWalk, hstep]
    rw [if_pos hdur]
  · simp only [cellWalk, hstep]
    rw [if_neg hdur]

/-- Witness for `cellWalk_merge_characterization`: a rest cell of count 3
after a rest note of duration 5 whose cell was truncated at count 255
merges into it, giving one note of duration 8. -/
theorem cellWalk_merge_characterization_witness :
    cellStep (fun _ => 0) (fun _ => 1) 3 0 = some (3, 0, "p", 0) ∧
    cellWalk (fun _ => 0) (fun _ => 1) [(3, 0)] 255 [⟨5, 0, "p", 0⟩] =
      .ok [⟨8, 0, "p", 0⟩] := by
  have hstep : cellStep (fun _ => 0) (fun _ => 1) 3 0 = some (3, 0, "p", 0) := by
    with_unfolding_all rfl
  refine ⟨hstep, ?_⟩
  have h := (cellWalk_merge_characterization (fun _ => 0) (fun _ => 1) 3 0 255 []
    ⟨5, 0, "p", 0⟩ [] 3 0 "p" 0 hstep).1 (by norm_num)
  rw [h]
  with_unfolding_all rfl

/-- C6 counterexample: in the token `"p.4."` dot runs appear in both
recognised positions (one dot right after the pitch, one after the octave
digit), but the parser's effective dot count is 1, not the sum 2: line 258
of the source uses the first nonempty run only. -/
theorem noteDots_both_positions_counterexample :
    regexMatch "p.4." = some ⟨none, "p", ".", some "4", "."⟩ ∧
    noteDots ⟨none, "p", ".", some "4", "."⟩ = 1 ∧
    ".".length + ".".length = 2 ∧ (1 : ℕ) ≠ 2 := by
  refine ⟨?_, ?_, ?_, ?_⟩
  · with_unfolding_all rfl
  · with_unfolding_all rfl
  · decide
  · decide

/-- C6 (amended): for every token whose match has nonempty dot runs in both
recognised positions, the effective dot count equals the count of the run
right after the pitch character alone; the post-octave run is ignored (it
is only used when the first run is empty), so the effective count is not
the sum of the two. -/
theorem noteDots_first_position_wins (t : String) (g : NoteGroups)
    (_hm : regexMatch t = some g) (h3 : g.g3 ≠ "") (h5 : g.g5 ≠ "") :
    noteDots g = g.g3.length ∧ noteDots g ≠ g.g3.length + g.g5.length := by
  have he : noteDots g = g.g3.length := by rw [noteDots, if_pos h3]
  refine ⟨he, ?_⟩
  rw [he]
  have h0 : g.g5.length ≠ 0 := by
    intro hlen
    apply h5
    have hd : g.g5.data = [] := List.length_eq_zero.mp hlen
    exact String.ext hd
  omega

/-- Witness for `noteDots_first_position_wins` at the token `"p.4."`. -/
theorem noteDots_first_position_wins_witness :
    noteDots ⟨none, "p", ".", some "4", "."⟩ = ".".length ∧
    noteDots ⟨none, "p", ".", some "4", "."⟩ ≠ ".".length + ".".length :=
  noteDots_first_position_wins "p.4." ⟨none, "p", ".", some "4", "."⟩
    (by with_unfolding_all rfl) (by decide) (by decide)

/-- C7: for every frequency `f > 0` whose 1-byte code
`temp3 = round(1000000 / (f * 24.72) - 399.3 / 24.72)` lies strictly
between 0 and 256, decoding the code back to a frequency has relative error
less than 0.05.  (The exact inverse of the unrounded code is `f` itself;
the error comes only from the rounding of the code, and is at most
`12.36 / (24.72 * temp3 + 399.3) ≤ 12.36 / 424.02 < 0.05`.) -/
theorem temp3_roundtrip_relative_error (f : ℚ) (hf : 0 < f)
    (h1 : 0 < calculate_am32_temp3_from_frequency f)
    (h2 : calculate_am32_temp3_from_frequency f < 256) :
    |f - calculate_frequency_from_am32_temp3
        (calculate_am32_temp3_from_frequency f).toNat| / f < 0.05 := by
  have hf0 : f ≠ 0 := ne_of_gt hf
  rw [calculate_am32_temp3_from_frequency, if_neg hf0] at h1 h2 ⊢
  set g : ℚ := 1000000 / (f * 24.72) - 399.3 / 24.72 with hg
  clear_value g
  set t : ℤ := round g with ht
  clear_value t
  have htn : ((t.toNat : ℕ) : ℚ) = (t : ℚ) := by
    exact_mod_cast congrArg (fun z => ((z : ℤ) : ℚ)) (Int.toNat_of_nonneg h1.le)
  have ht1 : (1 : ℚ) ≤ (t : ℚ) := by exact_mod_cast h1
  have htne : t.toNat ≠ 0 := by omega
  rw [calculate_frequency_from_am32_temp3, if_neg htne, htn]
  have habs : |(t : ℚ) - g| ≤ 1 / 2 := by
    rw [ht, abs_sub_comm]
    exact abs_sub_round g
  have hD2 : (0 : ℚ) < 24.72 * (t : ℚ) + 399.3 := by nlinarith
  have hDlb : (424.02 : ℚ) ≤ 24.72 * (t : ℚ) + 399.3 := by nlinarith
  have hkey : f * (24.72 * g + 399.3) = 1000000 := by
    rw [hg]
    field_simp
    ring
  have hsub : f - 1000000 / (24.72 * (t : ℚ) + 399.3) =
      f * (24.72 * ((t : ℚ) - g)) / (24.72 * (t : ℚ) + 399.3) := by
    rw [eq_div_iff (ne_of_gt hD2), sub_mul,
      div_mul_cancel₀ _ (ne_of_gt hD2)]
    linear_combination hkey
  rw [hsub, abs_div, abs_of_pos hD2, abs_mul, abs_of_pos hf, abs_mul,
    abs_of_pos (show (0 : ℚ) < 24.72 by norm_num)]
  rw [div_div, div_lt_iff₀ (by positivity)]
  have hstep : f * (24.72 * |(t : ℚ) - g|) ≤ f * 12.36 := by
    have : 24.72 * |(t : ℚ) - g| ≤ 12.36 := by nlinarith [abs_nonneg ((t : ℚ) - g)]
    nlinarith [abs_nonneg ((t : ℚ) - g)]
  have hrhs : f * 21.201 ≤ 0.05 * ((24.72 * (t : ℚ) + 399.3) * f) := by nlinarith
  nlinarith

/-- Witness for `temp3_roundtrip_relative_error` at `f = 1000` Hz
(`temp3 = 24`, decoded frequency `1000000 / 992.58 ≈ 1007.48` Hz,
relative error `≈ 0.0075`). -/
theorem temp3_roundtrip_relative_error_witness :
    0 < calculate_am32_temp3_from_frequency 1000 ∧
    calculate_am32_temp3_from_frequency 1000 < 256 ∧
    |1000 - calculate_frequency_from_am32_temp3
        (calculate_am32_temp3_from_frequency 1000).toNat| / 1000 < 0.05 := by
  have h1 : (0 : ℤ) < calculate_am32_temp3_from_frequency 1000 := by
    with_unfolding_all decide
  have h2 : calculate_am32_temp3_from_frequency 1000 < 256 := by
    with_unfolding_all decide
  exact ⟨h1, h2, temp3_roundtrip_relative_error 1000 (by norm_num) h1 h2⟩

/-- C8: decoding a buffer shorter than 4 bytes that is not all zero returns
exactly the placeholder string `name + ":d=1,o=4,bpm=100:"`, for every
oracle instantiation. -/
theorem decode_short_buffer_placeholder (semis : ℚ → ℤ) (pow12 : ℤ → ℚ)
    (data : List ℕ) (name : String) (hlen : data.length < 4)
    (hz : allZero data = false) :
    from_am32_startup_melody semis pow12 data name = .ok (name ++ ":d=1,o=4,bpm=100:") := by
  rw [from_am32_startup_melody, hz]
  simp only [Bool.false_eq_true, if_false, if_pos hlen]

/-- Witness for `decode_short_buffer_placeholder` at the 1-byte buffer
`[1]` and the name `"Melody"`. -/
theorem decode_short_buffer_placeholder_witness :
    from_am32_startup_melody (fun _ => 0) (fun _ => 1) [1] "Melody" =
      .ok ("Melody" ++ ":d=1,o=4,bpm=100:") :=
  decode_short_buffer_placeholder (fun _ => 0) (fun _ => 1) [1] "Melody"
    (by decide) (by with_unfolding_all rfl)

/-- C9: decoding a buffer all of whose bytes are zero returns the empty
string, whatever the buffer's length, for every oracle instantiation. -/
theorem decode_all_zero_buffer_empty (semis : ℚ → ℤ) (pow12 : ℤ → ℚ)
    (data : List ℕ) (name : String) (hz : allZero data = true) :
    from_am32_startup_melody semis pow12 data name = .ok "" := by
  rw [from_am32_startup_melody, hz]
  simp only [if_true]

/-- Witness for `decode_all_zero_buffer_empty` at the 7-byte zero buffer. -/
theorem decode_all_zero_buffer_empty_witness :
    from_am32_startup_melody (fun _ => 0) (fun _ => 1) [0, 0, 0, 0, 0, 0, 0] "Melody" =
      .ok "" :=
  decode_all_zero_buffer_empty (fun _ => 0) (fun _ => 1) [0, 0, 0, 0, 0, 0, 0] "Melody"
    (by with_unfolding_all rfl)

/-- C10 counterexample: the claim asserts that every buffer of length at
least 4 with `bpm = 0` (and not all zero) makes the decoder raise the
division by zero.  The buffer `[0, 0, 0, 0, 210, 168]` has a cell with
pitch byte 168, whose decoded frequency has exact semitone value
`round(12*log2(·/261.63)) = -3` (`semis_real_value_at_temp3_168`), so the
note-name lookup raises `IndexError` during the cell walk, before the
division is ever reached. -/
theorem decode_bpm_zero_index_error_counterexample :
    from_am32_startup_melody (fun _ => -3) (fun _ => 1) [0, 0, 0, 0, 210, 168] "Melody" =
      .error .indexError ∧
    (Except.error DecErr.indexError ≠
      (Except.error DecErr.divisionByZero : Except DecErr String)) := by
  refine ⟨?_, ?_⟩
  · with_unfolding_all rfl
  · intro h
    exact absurd (Except.error.inj h) (by decide)

/-- C10 (amended): for every buffer of length at least 4 whose first two
bytes are zero and which is not all zero, *provided the cell walk completes
without raising*, the decoder raises the division by zero at
`full_note_duration = 4 * 60000 / bpm`, before producing any output
string. -/
theorem decode_bpm_zero_division_after_walk (semis : ℚ → ℤ) (pow12 : ℤ → ℚ)
    (data : List ℕ) (name : String) (notes : List DNote)
    (hlen : 4 ≤ data.length) (h0 : data.getD 0 0 = 0) (h1 : data.getD 1 0 = 0)
    (hz : allZero data = false)
    (hw : cellWalk semis pow12 (toCells (data.drop 4)) (data.getD 2 0) [] = .ok notes) :
    from_am32_startup_melody semis pow12 data name = .error .divisionByZero := by
  rw [from_am32_startup_melody, hz]
  simp only [Bool.false_eq_true, if_false, if_neg (show ¬ data.length < 4 by omega), hw]
  rw [h0, h1]
  simp only [Nat.zero_shiftLeft, Nat.add_zero, if_pos rfl, if_true]

/-- Witness for `decode_bpm_zero_division_after_walk` at the buffer
`[0, 0, 1, 0]` (header only: no cells, so the walk trivially succeeds,
`bpm = 0`, and byte 2 makes the buffer not all zero). -/
theorem decode_bpm_zero_division_after_walk_witness :
    from_am32_startup_melody (fun _ => 0) (fun _ => 1) [0, 0, 1, 0] "Melody" =
      .error .divisionByZero :=
  decode_bpm_zero_division_after_walk (fun _ => 0) (fun _ => 1) [0, 0, 1, 0] "Melody" []
    (by decide) (by decide) (by decide) (by with_unfolding_all rfl)
    (by with_unfolding_all rfl)
